import Mathlib

/-!
Shallow embedding of `autogenstudio/chatmanager.py` (classes
`AutoGenChatManager` and `WebSocketConnectionManager`) and proofs of the
specified properties.

WebSocket handles are modelled as natural numbers; identity of a
connection is by handle, as in the Python code (`conn[0] != websocket`).
The registry (`active_connections`) is an ordered list of
(handle, client_id) pairs.
-/

namespace ChatManager

/-- A registry entry: a websocket handle paired with its client id,
mirroring the tuples stored in `active_connections`. -/
abbrev Registry := List (Nat × String)

/-- Python `WebSocketConnectionManager.connect`: after the accept handshake,
appends the new `(websocket, client_id)` entry to the list. -/
def connect (st : Registry) (ws : Nat) (cid : String) : Registry :=
  st ++ [(ws, cid)]

/-- Python `WebSocketConnectionManager.disconnect`: rebuilds the list keeping
every entry whose handle differs from the argument
(`[conn for conn in self.active_connections if conn[0] != websocket]`). -/
def disconnect (st : Registry) (ws : Nat) : Registry :=
  st.filter (fun conn => conn.1 ≠ ws)

/-- The body of `disconnect` never raises; the surrounding
`try/except ValueError` therefore always takes the normal path. -/
def disconnectE (st : Registry) (ws : Nat) : Except String Registry :=
  Except.ok (disconnect st ws)

/-- Outcome of the transport-level `websocket.send_json` call: success, or
one of the failure modes distinguished by the except-clauses of
`send_message` (`WebSocketDisconnect`, `ConnectionClosedOK`, anything else). -/
inductive SendOutcome
  | ok
  | wsDisconnect
  | closedOK
  | otherError
  deriving DecidableEq, Repr

/-- The raw transport primitive `websocket.send_json`: delivers the payload
or raises one of the transport errors. -/
def send_json (out : SendOutcome) : Except SendOutcome Unit :=
  match out with
  | .ok => Except.ok ()
  | e => Except.error e

/-- Result of one `send_message` call: the registry afterwards, whether the
payload was delivered to the peer, and whether `disconnect` was invoked. -/
structure SendResult where
  registry : Registry
  delivered : Bool
  disconnected : Bool
  deriving DecidableEq, Repr

/-- Python `WebSocketConnectionManager.send_message`: tries `send_json` under the
lock; each of the three except-clauses (`WebSocketDisconnect`,
`ConnectionClosedOK`, catch-all `Exception`) logs and then awaits
`disconnect(websocket)`.  An uncaught exception would surface as
`Except.error`; the catch-all makes that impossible. -/
def send_message (st : Registry) (ws : Nat) (out : SendOutcome) :
    Except SendOutcome SendResult :=
  match send_json out with
  | Except.ok _ => Except.ok ⟨st, true, false⟩
  | Except.error SendOutcome.wsDisconnect =>
      Except.ok ⟨disconnect st ws, false, true⟩
  | Except.error SendOutcome.closedOK =>
      Except.ok ⟨disconnect st ws, false, true⟩
  | Except.error _ =>
      Except.ok ⟨disconnect st ws, false, true⟩

/-- Minimal JSON values, enough to express the broadcast envelope
`{"message": message}` built at the top of `broadcast`. -/
inductive JsonVal
  | str (s : String)
  | num (n : Int)
  | obj (fields : List (String × JsonVal))

/-- The broadcast envelope `{"message": message}`. -/
def envelope (message : JsonVal) : JsonVal :=
  JsonVal.obj [("message", message)]

/-- Transport-level behaviour of one connection during a broadcast: the
`client_state == OPEN` test, and the outcome `send_json` would produce. -/
structure ConnBehavior where
  isOpen : Bool
  outcome : SendOutcome

/-- Loop body of `broadcast` over the snapshot `active_connections[:]`.
For each snapshot entry: if the client state is OPEN, call `send_message`
(which swallows every transport error after disconnecting); otherwise log
and `disconnect`.  The loop's own except-clause catches only
`WebSocketDisconnect` and `ConnectionClosedOK`; any other exception
escaping the body would abort the whole broadcast (`Except.error`). -/
def broadcast_go (env : Nat → ConnBehavior) (wire : JsonVal) :
    List (Nat × String) → Registry → List (Nat × JsonVal) →
    Except SendOutcome (Registry × List (Nat × JsonVal))
  | [], st, sent => Except.ok (st, sent)
  | (ws, _) :: rest, st, sent =>
      if (env ws).isOpen then
        match send_message st ws (env ws).outcome with
        | Except.ok r =>
            broadcast_go env wire rest r.registry
              (if r.delivered then sent ++ [(ws, wire)] else sent)
        | Except.error SendOutcome.wsDisconnect =>
            broadcast_go env wire rest (disconnect st ws) sent
        | Except.error SendOutcome.closedOK =>
            broadcast_go env wire rest (disconnect st ws) sent
        | Except.error e => Except.error e
      else
        broadcast_go env wire rest (disconnect st ws) sent

/-- Python `WebSocketConnectionManager.broadcast`: builds the envelope, then runs
the loop over a point-in-time snapshot of the registry.  Returns the final
registry and the ordered list of (handle, payload) deliveries. -/
def broadcast (env : Nat → ConnBehavior) (st : Registry) (message : JsonVal) :
    Except SendOutcome (Registry × List (Nat × JsonVal)) :=
  broadcast_go env (envelope message) st st []

/-- Does this connection fail at the transport level during a broadcast
(already closed, or `send_json` raises)? -/
def transportFails (env : Nat → ConnBehavior) (ws : Nat) : Bool :=
  !(env ws).isOpen || decide ((env ws).outcome ≠ SendOutcome.ok)

/-- Python `WebSocketConnectionManager.disconnect_all` generalised with an
interleaved adversary: sweeping over the snapshot of handles, before the
sweep's own `disconnect h` a concurrent caller may first disconnect the
handles `adv h`. -/
def disconnect_all_sweep (adv : Nat → List Nat) :
    List Nat → Registry → Registry
  | [], st => st
  | h :: rest, st =>
      disconnect_all_sweep adv rest (disconnect ((adv h).foldl disconnect st) h)

/-- Python `WebSocketConnectionManager.disconnect_all` as written (no concurrent
interference): snapshot the entries, disconnect each handle in turn. -/
def disconnect_all (st : Registry) : Registry :=
  disconnect_all_sweep (fun _ => []) (st.map Prod.fst) st

/-- One registry operation, for reasoning about call sequences. -/
inductive RegOp
  | connect (ws : Nat) (cid : String)
  | disconnect (ws : Nat)
  deriving DecidableEq, Repr

/-- Apply one operation to the registry. -/
def applyOp (st : Registry) : RegOp → Registry
  | RegOp.connect ws cid => connect st ws cid
  | RegOp.disconnect ws => disconnect st ws

/-- Apply one operation, surfacing any exception it could raise.  Neither
the list append in `connect` nor the list comprehension in `disconnect`
can raise (the `except ValueError` in `disconnect` is unreachable). -/
def applyOpE (st : Registry) : RegOp → Except String Registry
  | RegOp.connect ws cid => Except.ok (connect st ws cid)
  | RegOp.disconnect ws => disconnectE st ws

/-- Run a sequence of operations from a given state. -/
def runOpsFrom (st : Registry) (ops : List RegOp) : Registry :=
  ops.foldl applyOp st

/-- Run a sequence of operations from the empty registry. -/
def runOps (ops : List RegOp) : Registry :=
  runOpsFrom [] ops

/-- Run a sequence of operations, propagating any exception. -/
def runOpsFromE (st : Registry) : List RegOp → Except String Registry
  | [] => Except.ok st
  | op :: rest =>
      match applyOpE st op with
      | Except.ok st2 => runOpsFromE st2 rest
      | Except.error e => Except.error e

/-- Run from empty, propagating exceptions. -/
def runOpsE (ops : List RegOp) : Except String Registry :=
  runOpsFromE [] ops

/-- Does every `connect` in the sequence use a handle absent from the
registry at that point? -/
def freshOpsFrom : Registry → List RegOp → Bool
  | _, [] => true
  | st, op :: rest =>
      (match op with
       | RegOp.connect ws _ => decide (ws ∉ st.map Prod.fst)
       | RegOp.disconnect _ => true) &&
      freshOpsFrom (applyOp st op) rest

/-! ### Task dispatcher (`AutoGenChatManager`) -/

/-- Python `queue.Queue`: `maxsize <= 0` means unbounded. -/
structure PyQueue where
  maxsize : Int
  items : List String
  deriving DecidableEq, Repr

/-- Python `Queue.put_nowait`: appends the item, or raises `Full` when the queue
is bounded and already holds `maxsize` items. -/
def put_nowait (q : PyQueue) (x : String) : Except String PyQueue :=
  if 0 < q.maxsize ∧ q.maxsize ≤ (q.items.length : Int) then
    Except.error "Full"
  else
    Except.ok ⟨q.maxsize, q.items ++ [x]⟩

/-- Python `AutoGenChatManager.send`: if `message_queue is not None`, put the
message with `put_nowait`; any exception from `put_nowait` propagates. -/
def AutoGenChatManager.send (q : Option PyQueue) (message : String) :
    Except String (Option PyQueue) :=
  match q with
  | none => Except.ok none
  | some qq => (put_nowait qq message).map some

/-- An observable side effect of `AutoGenChatManager.chat`, in the order
the method performs it. -/
inductive ChatEffect
  | mkdir (path : String)
  | runExecutor
  deriving DecidableEq, Repr

/-- Result of running `chat` up to the invocation of the workflow
executor: the side effects performed, in order, and the exception raised
(if any). -/
structure ChatOutcome where
  effects : List ChatEffect
  error : Option String
  deriving DecidableEq, Repr

/-- Python `AutoGenChatManager.chat`, up to the executor call: first
`os.path.join(user_dir, session_id, timestamp)` and `os.makedirs`, then
the `workflow is None` check raising `ValueError("Workflow must be
specified")`, then construction of the `WorkflowManager` and its `run`
(the executor invocation). -/
def chat (user_dir session_id timestamp : String) (workflow : Option Unit) :
    ChatOutcome :=
  let work_dir := user_dir ++ "/" ++ session_id ++ "/" ++ timestamp
  match workflow with
  | none => ⟨[ChatEffect.mkdir work_dir], some "Workflow must be specified"⟩
  | some _ => ⟨[ChatEffect.mkdir work_dir, ChatEffect.runExecutor], none⟩

/-- One entry of `workflow_manager.agent_history`; only the nested
`["message"]["content"]` field is relevant to output generation. -/
structure TraceEntry where
  content : String
  deriving DecidableEq, Repr

/-- Python `AutoGenChatManager._generate_output`.  Here `code_blocks` is the result of
the external helper `extract_successful_code_blocks(agent_history)`, and
`llm_summary` the result of the external `summarize_chat_history` call;
both are external collaborators, so they enter as parameters.  Mirrors the
if/elif chain on `workflow.summary_method` with initial `output = ""`. -/
def generate_output (agent_history : List TraceEntry)
    (code_blocks : List String) (summary_method : String)
    (llm_summary : String) : String :=
  if summary_method = "last" then
    let successful_code_blocks := String.intercalate "\n\n" code_blocks
    let last_message :=
      match agent_history.getLast? with
      | some entry => entry.content
      | none => ""
    if successful_code_blocks.isEmpty then last_message
    else last_message ++ "\n" ++ successful_code_blocks
  else if summary_method = "llm" then
    llm_summary
  else if summary_method = "none" then
    ""
  else
    ""

/-! ### Lock discipline

Each registry operation is abstracted to its trace of lock and shared-state
events, read off the `async with self.active_connections_lock` blocks of
the Python code. -/

/-- An atomic event touching the shared lock or the shared state:
acquiring/releasing `active_connections_lock`, structurally mutating
`active_connections`, or transmitting on a websocket (`send_json`). -/
inductive LockEvent
  | acq
  | rel
  | mutate
  | transmit
  deriving DecidableEq, Repr

/-- Trace of `connect`: the list append happens inside `async with` (the accept
handshake before it touches no shared state). -/
def connect_trace : List LockEvent :=
  [LockEvent.acq, LockEvent.mutate, LockEvent.rel]

/-- Trace of `disconnect`: the list rebuild happens inside `async with`. -/
def disconnect_trace : List LockEvent :=
  [LockEvent.acq, LockEvent.mutate, LockEvent.rel]

/-- Trace of `send_message`: the `send_json` attempt is inside `async with`; on a
transport error the lock is released by the exiting `async with` before
the handler re-enters `disconnect`, which takes the lock again. -/
def send_message_trace (out : SendOutcome) : List LockEvent :=
  match out with
  | SendOutcome.ok => [LockEvent.acq, LockEvent.transmit, LockEvent.rel]
  | _ => [LockEvent.acq, LockEvent.transmit, LockEvent.rel] ++ disconnect_trace

/-- Trace of `broadcast`: per snapshot entry, either a `send_message` (client state
OPEN) or a `disconnect`; the loop itself holds no lock. -/
def broadcast_trace (env : Nat → ConnBehavior) :
    List (Nat × String) → List LockEvent
  | [] => []
  | (ws, _) :: rest =>
      (if (env ws).isOpen then send_message_trace (env ws).outcome
       else disconnect_trace) ++ broadcast_trace env rest

/-- Lock discipline of one operation's trace, scanning with the current
hold depth: `acq` only when not holding (the asyncio lock is not
re-entrant), `rel` only when holding, every `mutate` and `transmit` only
while holding, and the lock finally released. -/
def wellLockedFrom : Nat → List LockEvent → Bool
  | d, [] => d == 0
  | d, LockEvent.acq :: rest => d == 0 && wellLockedFrom 1 rest
  | d, LockEvent.rel :: rest => d == 1 && wellLockedFrom 0 rest
  | d, LockEvent.mutate :: rest => d == 1 && wellLockedFrom d rest
  | d, LockEvent.transmit :: rest => d == 1 && wellLockedFrom d rest

/-- Lock discipline from the unlocked state. -/
def wellLocked (tr : List LockEvent) : Bool :=
  wellLockedFrom 0 tr

/-- Interleave two operations' traces under a schedule: `false` steps the
first thread, `true` the second; a step of an exhausted thread is skipped. -/
def mergeT : List Bool → List LockEvent → List LockEvent →
    List (Bool × LockEvent)
  | [], _, _ => []
  | false :: s, a :: tA, tB => (false, a) :: mergeT s tA tB
  | false :: s, [], tB => mergeT s [] tB
  | true :: s, tA, b :: tB => (true, b) :: mergeT s tA tB
  | true :: s, tA, [] => mergeT s tA []

/-- The combined trace respects the mutual-exclusion lock: `acq` succeeds
only when the lock is free, `rel` only by the holder.  `holder` is the
thread currently holding the lock. -/
def lockRespectingFrom : Option Bool → List (Bool × LockEvent) → Bool
  | _, [] => true
  | holder, (i, LockEvent.acq) :: rest =>
      holder == none && lockRespectingFrom (some i) rest
  | holder, (i, LockEvent.rel) :: rest =>
      holder == some i && lockRespectingFrom none rest
  | holder, (_, LockEvent.mutate) :: rest => lockRespectingFrom holder rest
  | holder, (_, LockEvent.transmit) :: rest => lockRespectingFrom holder rest

/-- Lock-respecting from the free state. -/
def lockRespecting (tr : List (Bool × LockEvent)) : Bool :=
  lockRespectingFrom none tr

/-- Every `mutate` and `transmit` in the combined trace is performed by
the thread holding the lock — so no two delivery or mutation steps of
different operations are ever in flight together. -/
def exclusiveFrom : Option Bool → List (Bool × LockEvent) → Bool
  | _, [] => true
  | holder, (i, LockEvent.acq) :: rest =>
      (holder == none) && exclusiveFrom (some i) rest
  | holder, (i, LockEvent.rel) :: rest =>
      (holder == some i) && exclusiveFrom none rest
  | holder, (i, LockEvent.mutate) :: rest =>
      holder == some i && exclusiveFrom holder rest
  | holder, (i, LockEvent.transmit) :: rest =>
      holder == some i && exclusiveFrom holder rest

/-- Exclusivity from the free state. -/
def exclusiveAccess (tr : List (Bool × LockEvent)) : Bool :=
  exclusiveFrom none tr

/-- The hold depth thread `i` must be at when `holder` holds the lock. -/
def depthOf (holder : Option Bool) (i : Bool) : Nat :=
  if holder == some i then 1 else 0

/-- A connection survives a broadcast iff it does not fail at the
transport level. -/
def goodConn (env : Nat → ConnBehavior) (ws : Nat) : Bool :=
  !transportFails env ws

/-- Exception-tracking version of the `disconnect_all` sweep: each step is
the never-failing `disconnectE`. -/
def disconnect_all_sweepE (adv : Nat → List Nat) :
    List Nat → Registry → Except String Registry
  | [], st => Except.ok st
  | h :: rest, st =>
      match disconnectE ((adv h).foldl disconnect st) h with
      | Except.ok st2 => disconnect_all_sweepE adv rest st2
      | Except.error e => Except.error e

/-! ### Helper lemmas -/

theorem length_filter_split (l : List (Nat × String)) (p : Nat × String → Bool) :
    (l.filter p).length + (l.filter (fun a => !(p a))).length = l.length := by
  induction l with
  | nil => rfl
  | cons a l ih =>
      by_cases h : p a = true
      · simp [List.filter_cons, h, Nat.succ_add, ih]
      · simp only [Bool.not_eq_true] at h
        simp [List.filter_cons, h]
        omega

theorem mem_of_mem_disconnect {c : Nat × String} {st : Registry} {ws : Nat}
    (h : c ∈ disconnect st ws) : c ∈ st :=
  List.mem_of_mem_filter h

theorem mem_of_mem_foldl_disconnect {c : Nat × String} :
    ∀ (l : List Nat) (st : Registry), c ∈ l.foldl disconnect st → c ∈ st := by
  intro l
  induction l with
  | nil => intro st h; exact h
  | cons a l ih =>
      intro st h
      exact mem_of_mem_disconnect (ih (disconnect st a) h)

theorem disconnect_all_sweep_empty (adv : Nat → List Nat) :
    ∀ (hs : List Nat) (st : Registry), (∀ c ∈ st, c.1 ∈ hs) →
      disconnect_all_sweep adv hs st = [] := by
  intro hs
  induction hs with
  | nil =>
      intro st h
      cases st with
      | nil => rfl
      | cons c rest => exact absurd (h c (List.mem_cons_self c rest)) (by simp)
  | cons h rest ih =>
      intro st hmem
      simp only [disconnect_all_sweep]
      apply ih
      intro c hc
      have hne : c.1 ≠ h := by
        have := List.of_mem_filter hc
        simpa using this
      have hst : c ∈ st :=
        mem_of_mem_foldl_disconnect (adv h) st (mem_of_mem_disconnect hc)
      have := hmem c hst
      simp only [List.mem_cons] at this
      exact this.resolve_left hne

theorem disconnect_all_sweepE_ok (adv : Nat → List Nat) :
    ∀ (hs : List Nat) (st : Registry),
      disconnect_all_sweepE adv hs st =
        Except.ok (disconnect_all_sweep adv hs st) := by
  intro hs
  induction hs with
  | nil => intro st; rfl
  | cons h rest ih => intro st; simpa [disconnect_all_sweepE, disconnectE,
      disconnect_all_sweep] using ih _

/-! ### Claim theorems -/

/-- C2: whatever the transport outcome, `send_message` never lets an
exception escape; on every failing outcome it has invoked `disconnect` on
the handle before returning. -/
theorem send_message_always_cleans_up (st : Registry) (ws : Nat)
    (out : SendOutcome) :
    (∃ r : SendResult, send_message st ws out = Except.ok r) ∧
    (out ≠ SendOutcome.ok →
      send_message st ws out =
        Except.ok ⟨disconnect st ws, false, true⟩) := by
  cases out <;> simp [send_message, send_json]

/-- Witness for C2 at a concrete failing outcome. -/
theorem send_message_always_cleans_up_witness :
    send_message [(1, "a")] 1 SendOutcome.closedOK =
      Except.ok ⟨disconnect [(1, "a")] 1, false, true⟩ :=
  (send_message_always_cleans_up [(1, "a")] 1 SendOutcome.closedOK).2
    (by decide)

/-- C4: `disconnect` keeps the surviving entries in their original order
(a sublist of the registry), multiplicity-exactly removes every entry
whose handle equals the argument and no other, is a no-op when no entry
matches, is idempotent, and never raises. -/
theorem disconnect_removes_matching (st : Registry) (ws : Nat) :
    (disconnect st ws).Sublist st ∧
    (∀ c : Nat × String,
      (disconnect st ws).count c = if c.1 = ws then 0 else st.count c) ∧
    ((∀ c ∈ st, c.1 ≠ ws) → disconnect st ws = st) ∧
    disconnect (disconnect st ws) ws = disconnect st ws ∧
    disconnectE st ws = Except.ok (disconnect st ws) := by
  refine ⟨List.filter_sublist st, ?_, ?_, ?_, rfl⟩
  · intro c
    by_cases h : c.1 = ws
    · simp only [h, if_pos rfl]
      apply List.count_eq_zero.mpr
      intro hmem
      have := List.of_mem_filter hmem
      simp [h] at this
    · rw [if_neg h]
      apply List.count_filter
      simp [h]
  · intro h
    apply List.filter_eq_self.mpr
    intro c hc
    simpa using h c hc
  · apply List.filter_eq_self.mpr
    intro c hc
    simp only [disconnect] at hc
    simpa using List.of_mem_filter hc

/-- Witness for C4: a matching handle (with a duplicate) is fully removed;
an absent handle leaves the registry unchanged. -/
theorem disconnect_removes_matching_witness :
    disconnect [(1, "a"), (2, "b"), (1, "c")] 1 = [(2, "b")] ∧
    disconnect [(1, "a"), (2, "b")] 3 = [(1, "a"), (2, "b")] := by
  refine ⟨by decide, (disconnect_removes_matching [(1, "a"), (2, "b")] 3).2.2.1 ?_⟩
  decide

/-- C6 counterexample: with no workflow supplied, `chat` raises the
configuration error only after `os.makedirs` has already created the
working directory — refuting "fails before any working directory is
created". -/
theorem chat_mkdir_precedes_validation_cex :
    ((chat "u" "s1" "t0" none).error.isSome = true) ∧
    ChatEffect.mkdir "u/s1/t0" ∈ (chat "u" "s1" "t0" none).effects := by
  decide

/-- C6 amended: with no workflow supplied, `chat` raises the fatal
configuration error before the external task executor is invoked, but
after the working directory has been created. -/
theorem chat_no_workflow_fails_before_executor (u s t : String) :
    (chat u s t none).error = some "Workflow must be specified" ∧
    (chat u s t none).effects = [ChatEffect.mkdir (u ++ "/" ++ s ++ "/" ++ t)] :=
  ⟨rfl, rfl⟩

/-- C7: summary policy `last` on the trace `A, B` yields `B\nprint(1)`
with the single successful code block `print(1)`, and plain `B` with no
code blocks. -/
theorem summary_last_example :
    generate_output [⟨"A"⟩, ⟨"B"⟩] ["print(1)"] "last" "unused" =
      "B\nprint(1)" ∧
    generate_output [⟨"A"⟩, ⟨"B"⟩] [] "last" "unused" = "B" := by
  exact ⟨rfl, rfl⟩

/-- C8: any summary method other than `last`, `llm` and `none` falls
through the if/elif chain and produces the initial empty output. -/
theorem summary_unknown_method_empty (hist : List TraceEntry)
    (blocks : List String) (llm : String) (m : String)
    (h1 : m ≠ "last") (h2 : m ≠ "llm") (h3 : m ≠ "none") :
    generate_output hist blocks m llm = "" := by
  simp [generate_output, h1, h2, h3]

/-- Witness for C8 at a concrete unknown method. -/
theorem summary_unknown_method_empty_witness :
    generate_output [⟨"A"⟩] ["x"] "bogus" "y" = "" :=
  summary_unknown_method_empty [⟨"A"⟩] ["x"] "y" "bogus"
    (by decide) (by decide) (by decide)

/-- C10 counterexample: on a bounded queue that is already full,
`AutoGenChatManager.send` propagates the `Full` exception from
`put_nowait` — refuting "send never raises". -/
theorem send_full_queue_raises_cex :
    AutoGenChatManager.send (some ⟨1, ["m0"]⟩) "m1" = Except.error "Full" := by
  rfl

/-- C10 amended: `send` on a `None` queue silently does nothing; on a
queue that is unbounded or not yet full it appends exactly the given
message without blocking; only on a bounded, already-full queue does it
raise `Full`. -/
theorem send_enqueues_or_full (q : PyQueue) (message : String) :
    AutoGenChatManager.send none message = Except.ok none ∧
    (¬(0 < q.maxsize ∧ q.maxsize ≤ (q.items.length : Int)) →
      AutoGenChatManager.send (some q) message =
        Except.ok (some ⟨q.maxsize, q.items ++ [message]⟩)) ∧
    ((0 < q.maxsize ∧ q.maxsize ≤ (q.items.length : Int)) →
      AutoGenChatManager.send (some q) message = Except.error "Full") := by
  refine ⟨rfl, ?_, ?_⟩ <;> intro h <;>
    simp [AutoGenChatManager.send, put_nowait, h, Except.map]

/-- Witness for C10: an unbounded queue accepts the message; a full
bounded queue raises. -/
theorem send_enqueues_or_full_witness :
    AutoGenChatManager.send (some ⟨0, []⟩) "m" = Except.ok (some ⟨0, ["m"]⟩) ∧
    AutoGenChatManager.send (some ⟨1, ["m0"]⟩) "m" = Except.error "Full" :=
  ⟨(send_enqueues_or_full ⟨0, []⟩ "m").2.1 (by decide),
   (send_enqueues_or_full ⟨1, ["m0"]⟩ "m").2.2 (by decide)⟩

/-- Running operations never returns an error: no registry operation raises. -/
theorem runOpsFromE_ok (ops : List RegOp) :
    ∀ st : Registry, runOpsFromE st ops = Except.ok (runOpsFrom st ops) := by
  induction ops with
  | nil => intro st; rfl
  | cons op rest ih =>
      intro st
      cases op <;>
        simpa [runOpsFromE, applyOpE, disconnectE, runOpsFrom, applyOp]
          using ih _

/-- Handle freshness of connects preserves `Nodup` of the handle list. -/
theorem runOpsFrom_nodup (ops : List RegOp) :
    ∀ st : Registry, freshOpsFrom st ops = true →
      ((st.map Prod.fst).Nodup) →
      ((runOpsFrom st ops).map Prod.fst).Nodup := by
  induction ops with
  | nil => intro st _ h; exact h
  | cons op rest ih =>
      intro st hfresh hnd
      simp only [freshOpsFrom, Bool.and_eq_true] at hfresh
      refine ih (applyOp st op) hfresh.2 ?_
      cases op with
      | connect ws cid =>
          have hws : ws ∉ st.map Prod.fst := by
            have := hfresh.1
            simpa using this
          have hcat : (st.map Prod.fst ++ [ws]).Nodup := by
            simp [List.nodup_append, hnd, hws]
          simpa [applyOp, connect] using hcat
      | disconnect ws =>
          have hsub : (disconnect st ws).Sublist st := List.filter_sublist st
          exact (hsub.map Prod.fst).nodup hnd

/-- C3 counterexample: connecting the same handle twice (the code never
deduplicates in `connect`) leaves two registry entries with handle `0`,
refuting "the registry never contains two entries with the same handle"
for arbitrary connect/disconnect sequences. -/
theorem runOps_duplicate_handle_cex :
    ¬ ((runOps [RegOp.connect 0 "a", RegOp.connect 0 "b"]).map
        Prod.fst).Nodup := by
  decide

/-- C3 amended: for every finite sequence of connect/disconnect operations
from the empty registry in which each connect supplies a handle not
currently registered (disconnects of unknown or already-removed handles
remain unrestricted), no operation raises and the resulting registry never
holds two entries with the same handle. -/
theorem runOps_fresh_no_duplicates (ops : List RegOp)
    (h : freshOpsFrom [] ops = true) :
    runOpsE ops = Except.ok (runOps ops) ∧
    ((runOps ops).map Prod.fst).Nodup := by
  exact ⟨runOpsFromE_ok ops [], runOpsFrom_nodup ops [] h (by simp)⟩

/-- Witness for C3 (amended) on a sequence with redundant and unknown
disconnects and a re-connect of a previously removed handle. -/
theorem runOps_fresh_no_duplicates_witness :
    runOpsE [RegOp.connect 0 "a", RegOp.connect 1 "b", RegOp.disconnect 0,
      RegOp.disconnect 0, RegOp.disconnect 7, RegOp.connect 0 "c"] =
      Except.ok (runOps [RegOp.connect 0 "a", RegOp.connect 1 "b",
        RegOp.disconnect 0, RegOp.disconnect 0, RegOp.disconnect 7,
        RegOp.connect 0 "c"]) ∧
    ((runOps [RegOp.connect 0 "a", RegOp.connect 1 "b", RegOp.disconnect 0,
      RegOp.disconnect 0, RegOp.disconnect 7, RegOp.connect 0 "c"]).map
        Prod.fst).Nodup :=
  runOps_fresh_no_duplicates _ (by decide)

/-- C5: `disconnect_all` empties the registry and raises nothing, even
when before each of its own removals an interleaved concurrent caller has
already disconnected arbitrary handles (in particular the very handle
about to be swept): the repeated `disconnect` is a safe no-op. -/
theorem disconnect_all_empties (st : Registry) (adv : Nat → List Nat) :
    disconnect_all_sweep adv (st.map Prod.fst) st = [] ∧
    disconnect_all_sweepE adv (st.map Prod.fst) st = Except.ok [] ∧
    disconnect_all st = [] := by
  have hmem : ∀ c ∈ st, c.1 ∈ st.map Prod.fst := by
    intro c hc
    exact List.mem_map_of_mem Prod.fst hc
  have h1 := disconnect_all_sweep_empty adv (st.map Prod.fst) st hmem
  have h3 := disconnect_all_sweep_empty (fun _ => []) (st.map Prod.fst) st hmem
  refine ⟨h1, ?_, h3⟩
  rw [disconnect_all_sweepE_ok, h1]

/-- Disconnecting a failing snapshot handle commutes with restricting the
pruning predicate to the remaining snapshot handles. -/
theorem filter_disconnect_step (env : Nat → ConnBehavior) (st : Registry)
    (ws : Nat) (restH : List Nat) (hfail : transportFails env ws = true) :
    (disconnect st ws).filter
        (fun c => !(transportFails env c.1 && decide (c.1 ∈ restH))) =
      st.filter
        (fun c => !(transportFails env c.1 && decide (c.1 ∈ ws :: restH))) := by
  rw [disconnect, List.filter_filter]
  apply List.filter_congr
  intro c _
  by_cases hc : c.1 = ws
  · simp [hc, hfail]
  · simp [hc]

/-- Skipping a surviving snapshot handle likewise leaves the pruning
predicate unchanged. -/
theorem filter_skip_step (env : Nat → ConnBehavior) (st : Registry)
    (ws : Nat) (restH : List Nat) (hgood : transportFails env ws = false) :
    st.filter (fun c => !(transportFails env c.1 && decide (c.1 ∈ restH))) =
      st.filter
        (fun c => !(transportFails env c.1 && decide (c.1 ∈ ws :: restH))) := by
  apply List.filter_congr
  intro c _
  by_cases hc : c.1 = ws
  · simp [hc, hgood]
  · simp [hc]

/-- Loop invariant of `broadcast_go`: the broadcast never aborts, removes
from the registry exactly the entries whose handle both fails and occurs
in the remaining snapshot, and delivers the wire payload to exactly the
surviving snapshot entries, in snapshot order. -/
theorem broadcast_go_spec (env : Nat → ConnBehavior) (wire : JsonVal) :
    ∀ (snap : List (Nat × String)) (st : Registry)
      (sent : List (Nat × JsonVal)),
      broadcast_go env wire snap st sent = Except.ok
        (st.filter (fun c => !(transportFails env c.1 &&
            decide (c.1 ∈ snap.map Prod.fst))),
          sent ++ (snap.filter (fun c => goodConn env c.1)).map
            (fun c => (c.1, wire))) := by
  intro snap
  induction snap with
  | nil => intro st sent; simp [broadcast_go]
  | cons hd rest ih =>
      intro st sent
      obtain ⟨ws, cid⟩ := hd
      by_cases hopen : (env ws).isOpen
      · cases hout : (env ws).outcome with
        | ok =>
            have hgood : transportFails env ws = false := by
              simp [transportFails, hopen, hout]
            have hgc : goodConn env ws = true := by simp [goodConn, hgood]
            simp only [broadcast_go, hopen, if_true, hout, send_message,
              send_json, List.map_cons]
            rw [ih, filter_skip_step env st ws (rest.map Prod.fst) hgood]
            simp [List.filter_cons, hgc]
        | wsDisconnect =>
            have hfail : transportFails env ws = true := by
              simp [transportFails, hout]
            have hgc : goodConn env ws = false := by simp [goodConn, hfail]
            simp only [broadcast_go, hopen, if_true, hout, send_message,
              send_json, List.map_cons]
            rw [ih, filter_disconnect_step env st ws (rest.map Prod.fst) hfail]
            simp [List.filter_cons, hgc]
        | closedOK =>
            have hfail : transportFails env ws = true := by
              simp [transportFails, hout]
            have hgc : goodConn env ws = false := by simp [goodConn, hfail]
            simp only [broadcast_go, hopen, if_true, hout, send_message,
              send_json, List.map_cons]
            rw [ih, filter_disconnect_step env st ws (rest.map Prod.fst) hfail]
            simp [List.filter_cons, hgc]
        | otherError =>
            have hfail : transportFails env ws = true := by
              simp [transportFails, hout]
            have hgc : goodConn env ws = false := by simp [goodConn, hfail]
            simp only [broadcast_go, hopen, if_true, hout, send_message,
              send_json, List.map_cons]
            rw [ih, filter_disconnect_step env st ws (rest.map Prod.fst) hfail]
            simp [List.filter_cons, hgc]
      · have hopen2 : (env ws).isOpen = false := by
          simpa using hopen
        have hfail : transportFails env ws = true := by
          simp [transportFails, hopen2]
        have hgc : goodConn env ws = false := by simp [goodConn, hfail]
        simp only [broadcast_go, hopen2, Bool.false_eq_true, if_false,
          List.map_cons]
        rw [ih, filter_disconnect_step env st ws (rest.map Prod.fst) hfail]
        simp [List.filter_cons, hgc]

/-- C1: broadcast over a registry of N connections, where some subset S
fails at the transport level (already-closed client state, or any error
from `send_json`): the broadcast never aborts, every connection outside S
is sent exactly the envelope `{"message": payload}` (in registry order,
unaffected by earlier failures), every connection in S has been removed
from the registry when broadcast returns, and the registry then holds
N − |S| connections. -/
theorem broadcast_delivers_and_prunes (env : Nat → ConnBehavior)
    (st : Registry) (message : JsonVal) :
    broadcast env st message = Except.ok
      (st.filter (fun c => goodConn env c.1),
        (st.filter (fun c => goodConn env c.1)).map
          (fun c => (c.1, envelope message))) ∧
    (st.filter (fun c => goodConn env c.1)).length =
      st.length - (st.filter (fun c => transportFails env c.1)).length := by
  constructor
  · rw [broadcast, broadcast_go_spec]
    have hpred : st.filter (fun c => !(transportFails env c.1 &&
        decide (c.1 ∈ st.map Prod.fst))) =
          st.filter (fun c => goodConn env c.1) := by
      apply List.filter_congr
      intro c hc
      have : c.1 ∈ st.map Prod.fst := List.mem_map_of_mem Prod.fst hc
      simp [goodConn, this]
    rw [hpred]
    simp
  · have h := length_filter_split st (fun c => transportFails env c.1)
    have hg : st.filter (fun c => goodConn env c.1) =
        st.filter (fun a => !(transportFails env a.1)) := by
      simp [goodConn]
    rw [hg]
    omega

/-- Lock discipline is preserved by sequencing two disciplined traces. -/
theorem wellLockedFrom_append (a : List LockEvent) :
    ∀ (b : List LockEvent) (d : Nat), wellLockedFrom d a = true →
      wellLockedFrom 0 b = true → wellLockedFrom d (a ++ b) = true := by
  induction a with
  | nil =>
      intro b d ha hb
      simp only [wellLockedFrom, Nat.beq_eq_true_eq] at ha
      subst ha
      simpa using hb
  | cons e rest ih =>
      intro b d ha hb
      cases e <;> simp only [wellLockedFrom, Bool.and_eq_true,
          List.cons_append] at ha ⊢ <;>
        exact ⟨ha.1, ih b _ ha.2 hb⟩

/-- Every `send_message` trace is lock-disciplined. -/
theorem send_message_trace_wellLocked (out : SendOutcome) :
    wellLocked (send_message_trace out) = true := by
  cases out <;> decide

/-- Every `broadcast` trace is lock-disciplined. -/
theorem broadcast_trace_wellLocked (env : Nat → ConnBehavior) :
    ∀ snap : List (Nat × String),
      wellLocked (broadcast_trace env snap) = true := by
  intro snap
  induction snap with
  | nil => rfl
  | cons hd rest ih =>
      obtain ⟨ws, cid⟩ := hd
      simp only [broadcast_trace]
      apply wellLockedFrom_append _ _ 0 _ ih
      by_cases h : (env ws).isOpen
      · simpa [h] using send_message_trace_wellLocked (env ws).outcome
      · simp only [Bool.not_eq_true] at h
        simp [h]
        decide

/-- In any lock-respecting interleaving of two lock-disciplined traces,
every `mutate` and `transmit` is performed by the thread holding the lock. -/
theorem mergeT_exclusive_aux :
    ∀ (s : List Bool) (tA tB : List LockEvent) (holder : Option Bool),
      wellLockedFrom (depthOf holder false) tA = true →
      wellLockedFrom (depthOf holder true) tB = true →
      lockRespectingFrom holder (mergeT s tA tB) = true →
      exclusiveFrom holder (mergeT s tA tB) = true := by
  intro s
  induction s with
  | nil => intro tA tB holder _ _ _; rfl
  | cons b s ih =>
      intro tA tB holder hA hB hR
      cases b
      · cases tA with
        | nil => exact ih [] tB holder hA hB hR
        | cons a tA2 =>
            cases a
            · -- thread A acquires: lock must be free
              simp only [mergeT, lockRespectingFrom, Bool.and_eq_true,
                beq_iff_eq] at hR
              obtain ⟨hnone, hR2⟩ := hR
              subst hnone
              simp only [depthOf, wellLockedFrom] at hA
              simp only [mergeT, exclusiveFrom, Bool.and_eq_true]
              refine ⟨by simp, ih tA2 tB (some false) ?_ ?_ hR2⟩
              · simpa [depthOf] using hA
              · simpa [depthOf] using hB
            · -- thread A releases: it must be the holder
              simp only [depthOf, wellLockedFrom, Bool.and_eq_true,
                Nat.beq_eq_true_eq] at hA
              obtain ⟨hd, hA2⟩ := hA
              have hhold : holder = some false := by
                by_cases h : holder = some false
                · exact h
                · simp [h] at hd
              subst hhold
              simp only [mergeT, lockRespectingFrom, Bool.and_eq_true,
                beq_iff_eq] at hR
              simp only [mergeT, exclusiveFrom, Bool.and_eq_true]
              refine ⟨by simp, ih tA2 tB none ?_ ?_ hR.2⟩
              · simpa [depthOf] using hA2
              · simpa [depthOf] using hB
            · -- thread A mutates: only legal while holding
              simp only [depthOf, wellLockedFrom, Bool.and_eq_true,
                Nat.beq_eq_true_eq] at hA
              obtain ⟨hd, hA2⟩ := hA
              have hhold : holder = some false := by
                by_cases h : holder = some false
                · exact h
                · simp [h] at hd
              subst hhold
              simp only [mergeT, lockRespectingFrom] at hR
              simp only [mergeT, exclusiveFrom, Bool.and_eq_true]
              refine ⟨by simp, ih tA2 tB (some false) ?_ hB hR⟩
              simpa [depthOf] using hA2
            · -- thread A transmits: only legal while holding
              simp only [depthOf, wellLockedFrom, Bool.and_eq_true,
                Nat.beq_eq_true_eq] at hA
              obtain ⟨hd, hA2⟩ := hA
              have hhold : holder = some false := by
                by_cases h : holder = some false
                · exact h
                · simp [h] at hd
              subst hhold
              simp only [mergeT, lockRespectingFrom] at hR
              simp only [mergeT, exclusiveFrom, Bool.and_eq_true]
              refine ⟨by simp, ih tA2 tB (some false) ?_ hB hR⟩
              simpa [depthOf] using hA2
      · cases tB with
        | nil => exact ih tA [] holder hA hB hR
        | cons a tB2 =>
            cases a
            · simp only [mergeT, lockRespectingFrom, Bool.and_eq_true,
                beq_iff_eq] at hR
              obtain ⟨hnone, hR2⟩ := hR
              subst hnone
              simp only [depthOf, wellLockedFrom] at hB
              simp only [mergeT, exclusiveFrom, Bool.and_eq_true]
              refine ⟨by simp, ih tA tB2 (some true) ?_ ?_ hR2⟩
              · simpa [depthOf] using hA
              · simpa [depthOf] using hB
            · simp only [depthOf, wellLockedFrom, Bool.and_eq_true,
                Nat.beq_eq_true_eq] at hB
              obtain ⟨hd, hB2⟩ := hB
              have hhold : holder = some true := by
                by_cases h : holder = some true
                · exact h
                · simp [h] at hd
              subst hhold
              simp only [mergeT, lockRespectingFrom, Bool.and_eq_true,
                beq_iff_eq] at hR
              simp only [mergeT, exclusiveFrom, Bool.and_eq_true]
              refine ⟨by simp, ih tA tB2 none ?_ ?_ hR.2⟩
              · simpa [depthOf] using hA
              · simpa [depthOf] using hB2
            · simp only [depthOf, wellLockedFrom, Bool.and_eq_true,
                Nat.beq_eq_true_eq] at hB
              obtain ⟨hd, hB2⟩ := hB
              have hhold : holder = some true := by
                by_cases h : holder = some true
                · exact h
                · simp [h] at hd
              subst hhold
              simp only [mergeT, lockRespectingFrom] at hR
              simp only [mergeT, exclusiveFrom, Bool.and_eq_true]
              refine ⟨by simp, ih tA tB2 (some true) hA ?_ hR⟩
              simpa [depthOf] using hB2
            · simp only [depthOf, wellLockedFrom, Bool.and_eq_true,
                Nat.beq_eq_true_eq] at hB
              obtain ⟨hd, hB2⟩ := hB
              have hhold : holder = some true := by
                by_cases h : holder = some true
                · exact h
                · simp [h] at hd
              subst hhold
              simp only [mergeT, lockRespectingFrom] at hR
              simp only [mergeT, exclusiveFrom, Bool.and_eq_true]
              refine ⟨by simp, ih tA tB2 (some true) hA ?_ hR⟩
              simpa [depthOf] using hB2

/-- C9: all structural mutation (`connect`, `disconnect`) and every
transmission (`send_message`, and each step of `broadcast`) follow the
discipline of the single shared lock — each `mutate`/`transmit` event sits
inside an acquire/release pair of `active_connections_lock`, which wraps
the entire transmission — and consequently, in every lock-respecting
interleaving of any two such disciplined operations, every mutation and
transmission is performed by the current lock holder: at most one delivery
or mutation step is in flight registry-wide, and no connection is removed
while a write to it is in progress. -/
theorem single_lock_serializes (out : SendOutcome) (env : Nat → ConnBehavior)
    (snap : List (Nat × String)) (s : List Bool) (tA tB : List LockEvent)
    (hA : wellLocked tA = true) (hB : wellLocked tB = true)
    (hR : lockRespecting (mergeT s tA tB) = true) :
    wellLocked connect_trace = true ∧
    wellLocked disconnect_trace = true ∧
    wellLocked (send_message_trace out) = true ∧
    wellLocked (broadcast_trace env snap) = true ∧
    exclusiveAccess (mergeT s tA tB) = true := by
  refine ⟨by decide, by decide, send_message_trace_wellLocked out,
    broadcast_trace_wellLocked env snap, ?_⟩
  exact mergeT_exclusive_aux s tA tB none hA hB hR

/-- Witness for C9: a `connect` interleaved with a successful
`send_message`, scheduled strictly one after the other, respects the lock
and is exclusive. -/
theorem single_lock_serializes_witness :
    wellLocked connect_trace = true ∧
    wellLocked disconnect_trace = true ∧
    wellLocked (send_message_trace SendOutcome.ok) = true ∧
    wellLocked (broadcast_trace (fun _ => ⟨true, SendOutcome.ok⟩)
      [(0, "c")]) = true ∧
    exclusiveAccess (mergeT [false, false, false, true, true, true]
      connect_trace (send_message_trace SendOutcome.ok)) = true :=
  single_lock_serializes SendOutcome.ok (fun _ => ⟨true, SendOutcome.ok⟩)
    [(0, "c")] [false, false, false, true, true, true]
    connect_trace (send_message_trace SendOutcome.ok)
    (by decide) (by decide) (by decide)

end ChatManager
